import Mathlib

/-!
# Verification of the tasklib queue runtime

A shallow embedding of the core runtime of `tasklib` (a durable task queue
backed by a relational database): the persistent `Task` row model
(`src/tasklib/db/models.py`), the worker's claim / completion / failure
operations (`src/tasklib/worker.py`), and the submit-side validation
(`src/tasklib/core.py`).  Timestamps and durations are modelled as `ℚ`
(Python `datetime` arithmetic with fractional seconds), JSON leaf values as a
small inductive type, JSON objects as association lists, and the database
table as a list of rows updated by primary key.
-/

namespace Tasklib

/-- JSON leaf values, as stored in `kwargs` / `result` documents. -/
inductive JVal where
  | null
  | bool (b : Bool)
  | num (n : Int)
  | str (s : String)
deriving DecidableEq, Repr

/-- A flat JSON object (association list), used for `kwargs`, `result`,
`args` and `tags` columns. -/
abbrev JObj := List (String × JVal)

/-- The `state` column of a task row (`models.py` stores it as a string
drawn from pending / running / completed / failed). -/
inductive TaskState where
  | pending
  | running
  | completed
  | failed
deriving DecidableEq, Repr

/-- The `Task` row, following `src/tasklib/db/models.py` field for field.
The UUID primary key is modelled as a `Nat`; timestamps as `ℚ`. -/
structure Task where
  id : Nat
  name : String
  args : JObj
  kwargs : JObj
  state : TaskState
  result : Option JObj
  error : Option String
  retry_count : Nat
  max_retries : Nat
  next_retry_at : Option ℚ
  scheduled_at : ℚ
  started_at : Option ℚ
  completed_at : Option ℚ
  created_at : ℚ
  worker_id : Option String
  locked_until : Option ℚ
  timeout_seconds : Option Int
  priority : Int
  tags : JObj
deriving DecidableEq, Repr

/-- The runtime configuration, following `src/tasklib/config.py`
(`database_url` carries no queue semantics and is omitted). -/
structure Config where
  max_retries : Nat
  base_retry_delay_seconds : ℚ
  retry_backoff_multiplier : ℚ
  lock_timeout_seconds : ℚ
  default_task_timeout_seconds : Option Int
  worker_id : Option String
deriving DecidableEq, Repr

/-- The defaults of `Config` in `config.py`: `max_retries=3`,
`base_retry_delay_seconds=5.0`, `retry_backoff_multiplier=2.0`,
`lock_timeout_seconds=600`, no default task timeout, no fixed worker id. -/
def defaultConfig : Config :=
  ⟨3, 5, 2, 600, none, none⟩

/-- A Python exception as the failure path sees it: class name, message and
formatted stack text (`traceback.format_exc()`). -/
structure PyError where
  className : String
  message : String
  stackText : String
deriving DecidableEq, Repr

/-- The error string built in `TaskWorker._handle_failure`:
`f"{error.__class__.__name__}: {str(error)}\n{traceback.format_exc()}"`. -/
def formatError (e : PyError) : String :=
  e.className ++ ": " ++ e.message ++ "\n" ++ e.stackText

/-- The lock clause of the claim query in `TaskWorker._try_acquire_task`:
`(Task.locked_until.is_(None)) | (Task.locked_until < now)`. -/
def lockFree (lu : Option ℚ) (now : ℚ) : Bool :=
  match lu with
  | none => true
  | some x => decide (x < now)

/-- The due predicate of the claim query in `TaskWorker._try_acquire_task`:
`state IN ('pending','failed') AND scheduled_at <= now AND
(locked_until IS NULL OR locked_until < now)`. -/
def dueAt (t : Task) (now : ℚ) : Bool :=
  (decide (t.state = TaskState.pending) || decide (t.state = TaskState.failed))
    && decide (t.scheduled_at ≤ now)
    && lockFree t.locked_until now

/-- Row `a` precedes row `b` under the claim query's
`ORDER BY priority DESC, created_at ASC`. -/
def better (a b : Task) : Bool :=
  decide (b.priority < a.priority)
    || (decide (a.priority = b.priority) && decide (a.created_at < b.created_at))

/-- Keep the order-minimal row seen so far (first row wins full ties, as a
deterministic rendering of the SQL `LIMIT 1` over the sorted rows). -/
def chooseBetter (acc : Option Task) (t : Task) : Option Task :=
  match acc with
  | none => some t
  | some b => if better t b then some t else some b

/-- The row the claim query returns: the first row of the store under
`ORDER BY priority DESC, created_at ASC` (applied to already-filtered rows). -/
def pickBest (l : List Task) : Option Task :=
  l.foldl chooseBetter none

/-- The update applied to the selected row in `_try_acquire_task`:
`state='running'`, `worker_id=self.worker_id`,
`locked_until = now + lock_timeout_seconds`, `started_at = now`. -/
def claimUpdate (t : Task) (w : String) (now lockDur : ℚ) : Task :=
  { t with
    state := TaskState.running
    worker_id := some w
    locked_until := some (now + lockDur)
    started_at := some now }

/-- Single-row update by primary key, the effect of
`session.add(task); session.commit()` on the table. -/
def updateById (st : List Task) (i : Nat) (t' : Task) : List Task :=
  st.map (fun u => if u.id = i then t' else u)

/-- The acquire step `TaskWorker._try_acquire_task` over a table snapshot: select the first
due row under the query order, mark it running and leased, return the
updated row and the updated table; return nothing and leave the table
unchanged when no row is due. -/
def claimOne (cfg : Config) (st : List Task) (w : String) (now : ℚ) :
    Option Task × List Task :=
  match pickBest (st.filter (fun t => dueAt t now)) with
  | none => (none, st)
  | some t =>
    let t' := claimUpdate t w now cfg.lock_timeout_seconds
    (some t', updateById st t.id t')

/-- The completion write `TaskWorker._mark_completed`: `state='completed'`,
`result = {"value": v} if v is not None else None`, `completed_at = now`,
`locked_until = None`, `worker_id = None` (no other column is touched). -/
def markCompleted (t : Task) (v : Option JVal) (now : ℚ) : Task :=
  { t with
    state := TaskState.completed
    result := match v with
      | none => none
      | some x => some [("value", x)]
    completed_at := some now
    locked_until := none
    worker_id := none }

/-- The failure write `TaskWorker._handle_failure`: when `retry_count < max_retries`, bump
`retry_count`, set `next_retry_at = now + base_delay * multiplier^(rc-1)`,
record the error and release the lease; otherwise record the error, set
`completed_at = now` and release the lease, leaving `retry_count` as is. -/
def handleFailure (cfg : Config) (t : Task) (e : PyError) (now : ℚ) : Task :=
  if t.retry_count < t.max_retries then
    let rc := t.retry_count + 1
    let delay := cfg.base_retry_delay_seconds * cfg.retry_backoff_multiplier ^ (rc - 1)
    { t with
      state := TaskState.failed
      retry_count := rc
      next_retry_at := some (now + delay)
      error := some (formatError e)
      locked_until := none
      worker_id := none }
  else
    { t with
      state := TaskState.failed
      error := some (formatError e)
      completed_at := some now
      locked_until := none
      worker_id := none }

/-- Predicate `is_terminal` from `src/tasklib/core.py`: completed, or failed with
retries exhausted. -/
def is_terminal (t : Task) : Bool :=
  if t.state = TaskState.completed then true
  else decide (t.state = TaskState.failed) && decide (t.retry_count ≥ t.max_retries)

/-- The declared type of one handler parameter, as derived by the `task`
decorator from `inspect.signature` annotations (`Any` when unannotated). -/
inductive PTy where
  | int
  | str
  | bool
  | any
deriving DecidableEq, Repr

/-- Value-against-annotation check of the derived pydantic field. -/
def typeCheck : PTy → JVal → Bool
  | PTy.any, _ => true
  | PTy.int, JVal.num _ => true
  | PTy.int, _ => false
  | PTy.str, JVal.str _ => true
  | PTy.str, _ => false
  | PTy.bool, JVal.bool _ => true
  | PTy.bool, _ => false

/-- One declared handler parameter: name, annotation, and declared default
(`none` when the parameter is required). -/
structure Param where
  name : String
  ty : PTy
  default : Option JVal
deriving DecidableEq, Repr

/-- Registry metadata stored by the `task` decorator: the per-task
`max_retries` / `timeout_seconds` overrides and the derived parameter
schema (`params_model`). -/
structure TaskMeta where
  max_retries : Option Nat
  timeout_seconds : Option Int
  params : List Param
deriving DecidableEq, Repr

/-- The process-local `_task_registry`, keyed by function name (the opaque
callable itself is not modelled). -/
abbrev Registry := List (String × TaskMeta)

/-- Association-list lookup (first match), as dict lookup. -/
def lookupKw (kw : JObj) (k : String) : Option JVal :=
  match kw with
  | [] => none
  | e :: rest => if e.1 = k then some e.2 else lookupKw rest k

/-- Registry lookup by task name. -/
def lookupReg (reg : Registry) (n : String) : Option TaskMeta :=
  match reg with
  | [] => none
  | e :: rest => if e.1 = n then some e.2 else lookupReg rest n

/-- The derived pydantic validator (`params_model(**kwargs)` followed by
`model_dump()`): each declared field is checked against the supplied
arguments in declaration order; a supplied value must type-check, a missing
value falls back to the declared default and is an error when the parameter
is required; keys not declared by the model are ignored; the output is the
normalized mapping with every declared field present. -/
def validateParams : List Param → JObj → Except String JObj
  | [], _ => Except.ok []
  | p :: ps, kw =>
    match lookupKw kw p.name with
    | some v =>
      if typeCheck p.ty v then
        match validateParams ps kw with
        | Except.ok rest => Except.ok ((p.name, v) :: rest)
        | Except.error e => Except.error e
      else
        Except.error ("invalid value for field " ++ p.name)
    | none =>
      match p.default with
      | some d =>
        match validateParams ps kw with
        | Except.ok rest => Except.ok ((p.name, d) :: rest)
        | Except.error e => Except.error e
      | none => Except.error ("missing required field " ++ p.name)

/-- The submit path `submit_task` from `src/tasklib/core.py`, given the fresh row id and
the current time: registry lookup, argument validation, override
resolution (submit override, then registration override, then config
default), and construction of the pending row.  Raising is modelled as
`Except.error`; the initialized-runtime precondition (`_config`/`_engine`
set) is ambient. -/
def submitRow (reg : Registry) (cfg : Config) (id : Nat) (now : ℚ)
    (funcName : String) (kwargs : JObj) (delay_seconds : Int)
    (max_retries : Option Nat) (timeout_seconds : Option Int)
    (priority : Int) (tags : JObj) : Except String Task :=
  match lookupReg reg funcName with
  | none => Except.error ("Task " ++ funcName ++ " not registered")
  | some meta =>
    match validateParams meta.params kwargs with
    | Except.error e => Except.error ("Invalid arguments for task " ++ funcName ++ ": " ++ e)
    | Except.ok validated =>
      let finalMax : Nat :=
        match max_retries with
        | some m => m
        | none =>
          match meta.max_retries with
          | some m => m
          | none => cfg.max_retries
      let finalTimeout : Option Int :=
        match timeout_seconds with
        | some x => some x
        | none =>
          match meta.timeout_seconds with
          | some x => some x
          | none => cfg.default_task_timeout_seconds
      Except.ok
        { id := id
          name := funcName
          args := []
          kwargs := validated
          state := TaskState.pending
          result := none
          error := none
          retry_count := 0
          max_retries := finalMax
          next_retry_at := none
          scheduled_at := now + (delay_seconds : ℚ)
          started_at := none
          completed_at := none
          created_at := now
          worker_id := none
          locked_until := none
          timeout_seconds := finalTimeout
          priority := priority
          tags := tags }

/-- The submit path acting on the table: on success the single new row is
inserted and its id returned; on a validation or lookup error nothing is
written. -/
def submitStore (reg : Registry) (cfg : Config) (id : Nat) (now : ℚ)
    (funcName : String) (kwargs : JObj) (delay_seconds : Int)
    (max_retries : Option Nat) (timeout_seconds : Option Int)
    (priority : Int) (tags : JObj) (st : List Task) :
    Except String Nat × List Task :=
  match submitRow reg cfg id now funcName kwargs delay_seconds max_retries
      timeout_seconds priority tags with
  | Except.error e => (Except.error e, st)
  | Except.ok t => (Except.ok t.id, st ++ [t])

/-- Outcome of one execution attempt in `TaskWorker._execute_task`. -/
inductive ExecOutcome where
  | completed (v : Option JVal)
  | failed (e : PyError)
  | timedOut
deriving DecidableEq, Repr

/-- Python truthiness of `task.timeout_seconds` in
`if task.timeout_seconds:` — false for `None` and for `0`. -/
def timeoutApplies (t : Option Int) : Bool :=
  match t with
  | none => false
  | some n => decide (n ≠ 0)

/-- Numeric value handed to `asyncio.wait_for` when a timeout applies. -/
def timeoutValue (t : Option Int) : ℚ :=
  match t with
  | none => 0
  | some n => (n : ℚ)

/-- The dispatch in `TaskWorker._execute_task`: when `timeout_seconds` is
truthy the handler is awaited under `asyncio.wait_for` and abandoning the
wait yields a timeout outcome; otherwise the handler is awaited without
bound and its own result or exception is the outcome.  `duration` is the
handler's running time, `run` its result or raised exception. -/
def executeOutcome (t : Task) (duration : ℚ)
    (run : Except PyError (Option JVal)) : ExecOutcome :=
  if timeoutApplies t.timeout_seconds then
    if timeoutValue t.timeout_seconds < duration then ExecOutcome.timedOut
    else
      match run with
      | Except.ok v => ExecOutcome.completed v
      | Except.error e => ExecOutcome.failed e
  else
    match run with
    | Except.ok v => ExecOutcome.completed v
    | Except.error e => ExecOutcome.failed e

/-- The `FOR UPDATE` clause built by `_try_acquire_task`: SQLAlchemy's
`with_for_update()` is called with no arguments, so every flag keeps its
default value `False` (`read=False, nowait=False, skip_locked=False,
key_share=False`). -/
structure ForUpdateClause where
  read : Bool
  nowait : Bool
  skip_locked : Bool
  key_share : Bool
deriving DecidableEq, Repr

/-- The lock clause as the source constructs it: `.with_for_update()`. -/
def acquireForUpdate : ForUpdateClause :=
  ⟨false, false, false, false⟩

/-- Sequential execution of claim attempts by a list of claimers (each
identified by its worker id) against one table at one instant: the
serialized semantics of the claim transactions.  Returns the list of rows
the successful claims returned and the final table. -/
def claimAll (cfg : Config) (ws : List String) (st : List Task) (now : ℚ) :
    List Task × List Task :=
  match ws with
  | [] => ([], st)
  | w :: ws' =>
    match claimOne cfg st w now with
    | (none, st') => claimAll cfg ws' st' now
    | (some t, st') =>
      let r := claimAll cfg ws' st' now
      (t :: r.1, r.2)

/-- Single-row reachability: every task value producible by the library's
own operation sequence — inserted by `submit_task`, then repeatedly
claimed when due (`_try_acquire_task`), completed (`_mark_completed`) or
failed (`_handle_failure`) while running. -/
inductive Reach (cfg : Config) : Task → Prop where
  | submit (reg : Registry) (id : Nat) (now : ℚ) (funcName : String)
      (kwargs : JObj) (delay_seconds : Int) (max_retries : Option Nat)
      (timeout_seconds : Option Int) (priority : Int) (tags : JObj) (t : Task)
      (h : submitRow reg cfg id now funcName kwargs delay_seconds max_retries
        timeout_seconds priority tags = Except.ok t) : Reach cfg t
  | claim (t : Task) (w : String) (now : ℚ) (hr : Reach cfg t)
      (hd : dueAt t now = true) :
      Reach cfg (claimUpdate t w now cfg.lock_timeout_seconds)
  | complete (t : Task) (v : Option JVal) (now : ℚ) (hr : Reach cfg t)
      (hs : t.state = TaskState.running) : Reach cfg (markCompleted t v now)
  | fail (t : Task) (e : PyError) (now : ℚ) (hr : Reach cfg t)
      (hs : t.state = TaskState.running) : Reach cfg (handleFailure cfg t e now)

/-- Demo schema: the `add(a: int, b: int)` handler used throughout the
repository's tests. -/
def demoParams : List Param :=
  [⟨"a", PTy.int, none⟩, ⟨"b", PTy.int, none⟩]

/-- Registry metadata of the demo handler (no per-task overrides). -/
def demoMeta : TaskMeta :=
  ⟨none, none, demoParams⟩

/-- A registry holding only the demo handler. -/
def demoReg : Registry :=
  [("add", demoMeta)]

/-- Concrete submitted arguments `a=5, b=3`. -/
def demoKwargs : JObj :=
  [("a", JVal.num 5), ("b", JVal.num 3)]

/-- The row `submit_task(add, a=5, b=3)` inserts at time 0 with row id 1
under the default configuration. -/
def demoTask : Task :=
  { id := 1
    name := "add"
    args := []
    kwargs := demoKwargs
    state := TaskState.pending
    result := none
    error := none
    retry_count := 0
    max_retries := 3
    next_retry_at := none
    scheduled_at := 0
    started_at := none
    completed_at := none
    created_at := 0
    worker_id := none
    locked_until := none
    timeout_seconds := none
    priority := 0
    tags := [] }

/-- A concrete handler exception. -/
def demoErr : PyError :=
  ⟨"ValueError", "First attempt fails", "Traceback (most recent call last)"⟩

/-- A claimed row whose retries are exhausted (`retry_count = max_retries`),
as left behind by three earlier non-terminal failures and a fourth claim. -/
def demoSpent : Task :=
  { demoTask with
    state := TaskState.running
    retry_count := 3
    worker_id := some "w1"
    locked_until := some 600
    started_at := some 0
    error := some "ValueError: First attempt fails\nTraceback (most recent call last)" }

/-! ## Order of the claim query -/

theorem better_iff (a b : Task) :
    better a b = true ↔
      b.priority < a.priority ∨ (a.priority = b.priority ∧ a.created_at < b.created_at) := by
  simp [better]

theorem not_better_iff (a b : Task) :
    better a b = false ↔
      a.priority ≤ b.priority ∧ (a.priority = b.priority → b.created_at ≤ a.created_at) := by
  constructor
  · intro h
    have h' : ¬ better a b = true := by simp [h]
    rw [better_iff] at h'
    push_neg at h'
    exact h'
  · intro ⟨h1, h2⟩
    have : ¬ better a b = true := by
      rw [better_iff]
      push_neg
      exact ⟨h1, h2⟩
    simpa using this

theorem better_irrefl (a : Task) : better a a = false := by
  rw [not_better_iff]
  exact ⟨le_refl _, fun _ => le_refl _⟩

theorem better_trans {a b c : Task} (h1 : better a b = true) (h2 : better b c = true) :
    better a c = true := by
  rw [better_iff] at h1 h2 ⊢
  rcases h1 with h1 | ⟨h1e, h1c⟩ <;> rcases h2 with h2 | ⟨h2e, h2c⟩
  · exact Or.inl (lt_trans h2 h1)
  · exact Or.inl (h2e ▸ h1)
  · exact Or.inl (h1e ▸ h2)
  · exact Or.inr ⟨h1e.trans h2e, lt_trans h1c h2c⟩

theorem not_better_trans {a b c : Task} (h1 : better a b = false) (h2 : better b c = false) :
    better a c = false := by
  rw [not_better_iff] at h1 h2 ⊢
  refine ⟨le_trans h1.1 h2.1, fun he => ?_⟩
  have hab : a.priority = b.priority :=
    le_antisymm h1.1 (h2.1.trans (le_of_eq he.symm))
  have hbc : b.priority = c.priority :=
    le_antisymm h2.1 ((le_of_eq he.symm).trans h1.1)
  exact le_trans (h2.2 hbc) (h1.2 hab)

theorem not_better_of_better_left {t b c : Task} (h1 : better t b = true)
    (h2 : better t c = false) : better b c = false := by
  cases h : better b c with
  | false => rfl
  | true => exact absurd (better_trans h1 h) (by simp [h2])

theorem foldl_chooseBetter_spec (l : List Task) :
    ∀ b0 : Task, ∃ b, l.foldl chooseBetter (some b0) = some b ∧ (b = b0 ∨ b ∈ l) ∧
      better b0 b = false ∧ ∀ u ∈ l, better u b = false := by
  induction l with
  | nil =>
    intro b0
    exact ⟨b0, rfl, Or.inl rfl, better_irrefl b0, by simp⟩
  | cons t l ih =>
    intro b0
    by_cases hbt : better t b0 = true
    · obtain ⟨b, hfold, hmem, hb, hall⟩ := ih t
      have hstep : chooseBetter (some b0) t = some t := by simp [chooseBetter, hbt]
      refine ⟨b, ?_, ?_, ?_, ?_⟩
      · rw [List.foldl_cons, hstep, hfold]
      · rcases hmem with rfl | hm
        · exact Or.inr (List.mem_cons_self _ _)
        · exact Or.inr (List.mem_cons_of_mem _ hm)
      · exact not_better_of_better_left hbt hb
      · intro u hu
        rcases List.mem_cons.mp hu with rfl | hm
        · exact hb
        · exact hall u hm
    · have hbt' : better t b0 = false := by
        cases h : better t b0 with
        | false => rfl
        | true => exact absurd h hbt
      obtain ⟨b, hfold, hmem, hb, hall⟩ := ih b0
      have hstep : chooseBetter (some b0) t = some b0 := by simp [chooseBetter, hbt']
      refine ⟨b, ?_, ?_, hb, ?_⟩
      · rw [List.foldl_cons, hstep, hfold]
      · rcases hmem with rfl | hm
        · exact Or.inl rfl
        · exact Or.inr (List.mem_cons_of_mem _ hm)
      · intro u hu
        rcases List.mem_cons.mp hu with rfl | hm
        · exact not_better_trans hbt' hb
        · exact hall u hm

theorem pickBest_spec {l : List Task} {b : Task} (h : pickBest l = some b) :
    b ∈ l ∧ ∀ u ∈ l, better u b = false := by
  cases l with
  | nil => exact absurd h (by simp [pickBest])
  | cons t l =>
    have hshape : pickBest (t :: l) = l.foldl chooseBetter (some t) := by
      simp [pickBest, chooseBetter]
    obtain ⟨b', hfold, hmem, hb, hall⟩ := foldl_chooseBetter_spec l t
    rw [hshape, hfold] at h
    obtain rfl : b' = b := by injection h
    constructor
    · rcases hmem with rfl | hm
      · exact List.mem_cons_self _ _
      · exact List.mem_cons_of_mem _ hm
    · intro u hu
      rcases List.mem_cons.mp hu with rfl | hm
      · exact hb
      · exact hall u hm

theorem pickBest_eq_none_iff {l : List Task} : pickBest l = none ↔ l = [] := by
  cases l with
  | nil => simp [pickBest]
  | cons t l =>
    have hshape : pickBest (t :: l) = l.foldl chooseBetter (some t) := by
      simp [pickBest, chooseBetter]
    obtain ⟨b', hfold, -, -, -⟩ := foldl_chooseBetter_spec l t
    rw [hshape, hfold]
    simp

/-! ## Elimination lemmas for the claim operation -/

theorem dueAt_claimUpdate (t : Task) (w : String) (now lockDur m : ℚ) :
    dueAt (claimUpdate t w now lockDur) m = false := by
  simp [dueAt, claimUpdate]

theorem claimOne_some_elim {cfg : Config} {st : List Task} {w : String} {now : ℚ}
    {t' : Task} {st2 : List Task} (h : claimOne cfg st w now = (some t', st2)) :
    ∃ t, pickBest (st.filter (fun u => dueAt u now)) = some t ∧
      t' = claimUpdate t w now cfg.lock_timeout_seconds ∧ st2 = updateById st t.id t' := by
  unfold claimOne at h
  rcases hp : pickBest (st.filter (fun u => dueAt u now)) with - | t
  · rw [hp] at h
    simp at h
  · rw [hp] at h
    simp only [Prod.mk.injEq] at h
    obtain ⟨h1, h2⟩ := h
    obtain rfl : claimUpdate t w now cfg.lock_timeout_seconds = t' := by injection h1
    exact ⟨t, rfl, rfl, h2.symm⟩

theorem claimOne_none_elim {cfg : Config} {st : List Task} {w : String} {now : ℚ}
    {st2 : List Task} (h : claimOne cfg st w now = (none, st2)) :
    st2 = st ∧ ∀ t ∈ st, dueAt t now = false := by
  unfold claimOne at h
  rcases hp : pickBest (st.filter (fun u => dueAt u now)) with - | t
  · rw [hp] at h
    simp only [Prod.mk.injEq] at h
    have hnil := pickBest_eq_none_iff.mp hp
    refine ⟨h.2.symm, fun t ht => ?_⟩
    cases hd : dueAt t now with
    | false => rfl
    | true =>
      have : t ∈ st.filter (fun u => dueAt u now) := List.mem_filter.mpr ⟨ht, hd⟩
      rw [hnil] at this
      exact absurd this (List.not_mem_nil t)
  · rw [hp] at h
    simp at h

theorem claimOne_of_no_due {cfg : Config} {st : List Task} {w : String} {now : ℚ}
    (h : ∀ t ∈ st, dueAt t now = false) : claimOne cfg st w now = (none, st) := by
  have hnil : st.filter (fun u => dueAt u now) = [] := by
    rw [List.filter_eq_nil_iff]
    intro t ht
    simp [h t ht]
  unfold claimOne
  rw [hnil]
  rfl

theorem updateById_eq_self {st : List Task} {i : Nat} {t' : Task}
    (h : ∀ u ∈ st, u.id ≠ i) : updateById st i t' = st := by
  induction st with
  | nil => rfl
  | cons u us ih =>
    have hu : u.id ≠ i := h u (List.mem_cons_self _ _)
    simp only [updateById, List.map_cons, if_neg hu]
    have := ih (fun v hv => h v (List.mem_cons_of_mem _ hv))
    simp only [updateById] at this
    rw [this]

theorem updateById_map_id {st : List Task} {i : Nat} {t' : Task} (h : t'.id = i) :
    (updateById st i t').map Task.id = st.map Task.id := by
  unfold updateById
  rw [List.map_map]
  apply List.map_congr_left
  intro u hu
  by_cases hui : u.id = i
  · simp [Function.comp, hui, h]
  · simp [Function.comp, hui]

theorem claimOne_snd_ids (cfg : Config) (st : List Task) (w : String) (now : ℚ) :
    ((claimOne cfg st w now).2).map Task.id = st.map Task.id := by
  rcases hc : claimOne cfg st w now with ⟨o, st2⟩
  cases o with
  | none =>
    obtain ⟨rfl, -⟩ := claimOne_none_elim hc
    rfl
  | some t' =>
    obtain ⟨t, -, ht', rfl⟩ := claimOne_some_elim hc
    exact updateById_map_id (by rw [ht']; rfl)

theorem due_count_update {st : List Task} {t t' : Task} {now : ℚ}
    (hnodup : (st.map Task.id).Nodup) (hmem : t ∈ st) (hdue : dueAt t now = true)
    (hdue' : dueAt t' now = false) :
    ((updateById st t.id t').filter (fun u => dueAt u now)).length + 1
      = (st.filter (fun u => dueAt u now)).length := by
  induction st with
  | nil => exact absurd hmem (List.not_mem_nil t)
  | cons u us ih =>
    simp only [List.map_cons, List.nodup_cons] at hnodup
    rcases List.mem_cons.mp hmem with rfl | hmem'
    · have hrest : updateById us t.id t' = us := by
        apply updateById_eq_self
        intro v hv he
        exact hnodup.1 (he ▸ List.mem_map_of_mem Task.id hv)
      simp only [updateById, List.map_cons, if_pos rfl]
      have hrest' : us.map (fun u => if u.id = t.id then t' else u) = us := hrest
      rw [hrest']
      simp [List.filter_cons, hdue, hdue']
    · have hne : u.id ≠ t.id := by
        intro he
        exact hnodup.1 (he ▸ List.mem_map_of_mem Task.id hmem')
      simp only [updateById, List.map_cons, if_neg hne]
      have htail := ih hnodup.2 hmem'
      simp only [updateById] at htail
      cases hdu : dueAt u now with
      | true => simp [List.filter_cons, hdu, Nat.succ_eq_add_one]; omega
      | false => simpa [List.filter_cons, hdu] using htail

/-! ## Elimination lemma for submit -/

theorem submitRow_ok_elim {reg : Registry} {cfg : Config} {id : Nat} {now : ℚ}
    {fn : String} {kw : JObj} {d : Int} {mr : Option Nat} {ts : Option Int}
    {prio : Int} {tg : JObj} {t : Task}
    (h : submitRow reg cfg id now fn kw d mr ts prio tg = Except.ok t) :
    t.state = TaskState.pending ∧ t.retry_count = 0 ∧ t.scheduled_at = now + (d : ℚ) ∧
      t.error = none ∧ t.result = none ∧ t.completed_at = none ∧ t.worker_id = none ∧
      t.locked_until = none ∧ t.id = id ∧ t.created_at = now ∧
      ∃ meta, lookupReg reg fn = some meta ∧ validateParams meta.params kw = Except.ok t.kwargs := by
  unfold submitRow at h
  split at h
  · exact absurd h (by simp)
  · rename_i meta hl
    split at h
    · exact absurd h (by simp)
    · rename_i v hv
      simp only [Except.ok.injEq] at h
      subst h
      exact ⟨rfl, rfl, rfl, rfl, rfl, rfl, rfl, rfl, rfl, rfl, meta, hl, hv⟩

/-! ## Structure of successful validation -/

theorem validateParams_cons_elim {p : Param} {ps : List Param} {X Y : JObj}
    (h : validateParams (p :: ps) X = Except.ok Y) :
    ∃ w Y', Y = (p.name, w) :: Y' ∧ validateParams ps X = Except.ok Y' ∧
      ((lookupKw X p.name = some w ∧ typeCheck p.ty w = true) ∨
        (lookupKw X p.name = none ∧ p.default = some w)) := by
  simp only [validateParams] at h
  split at h
  · rename_i v hv
    split at h
    · rename_i htc
      split at h
      · rename_i rest hrest
        simp only [Except.ok.injEq] at h
        exact ⟨v, rest, h.symm, hrest, Or.inl ⟨hv, htc⟩⟩
      · simp at h
    · simp at h
  · rename_i hv
    split at h
    · rename_i d hd
      split at h
      · rename_i rest hrest
        simp only [Except.ok.injEq] at h
        exact ⟨d, rest, h.symm, hrest, Or.inr ⟨hv, hd⟩⟩
      · simp at h
    · simp at h

theorem validateParams_keys {ps : List Param} {X Y : JObj}
    (h : validateParams ps X = Except.ok Y) : Y.map Prod.fst = ps.map Param.name := by
  induction ps generalizing Y with
  | nil =>
    simp only [validateParams, Except.ok.injEq] at h
    subst h
    rfl
  | cons p ps ih =>
    obtain ⟨w, Y', rfl, hrest, -⟩ := validateParams_cons_elim h
    simp [ih hrest]

theorem validateParams_lookup {ps : List Param} {X Y : JObj}
    (hnodup : (ps.map Param.name).Nodup) (h : validateParams ps X = Except.ok Y) :
    ∀ p ∈ ps, (∀ v, lookupKw X p.name = some v → lookupKw Y p.name = some v) ∧
      (lookupKw X p.name = none → ∃ dv, p.default = some dv ∧ lookupKw Y p.name = some dv) := by
  induction ps generalizing Y with
  | nil =>
    intro p hp
    exact absurd hp (List.not_mem_nil p)
  | cons q ps ih =>
    obtain ⟨w, Y', rfl, hrest, hcase⟩ := validateParams_cons_elim h
    simp only [List.map_cons, List.nodup_cons] at hnodup
    intro p hp
    rcases List.mem_cons.mp hp with rfl | hp'
    · have hY : lookupKw ((p.name, w) :: Y') p.name = some w := by simp [lookupKw]
      constructor
      · intro v hv
        rcases hcase with ⟨hv', -⟩ | ⟨hv', -⟩
        · rw [hv] at hv'
          obtain rfl : v = w := by injection hv'
          exact hY
        · rw [hv'] at hv
          exact absurd hv (by simp)
      · intro hnone
        rcases hcase with ⟨hv', -⟩ | ⟨-, hd⟩
        · rw [hnone] at hv'
          exact absurd hv' (by simp)
        · exact ⟨w, hd, hY⟩
    · have hne : q.name ≠ p.name := by
        intro he
        exact hnodup.1 (he ▸ List.mem_map_of_mem Param.name hp')
      have hskip : lookupKw ((q.name, w) :: Y') p.name = lookupKw Y' p.name := by
        simp [lookupKw, hne]
      have hih := ih hnodup.2 hrest p hp'
      refine ⟨fun v hv => ?_, fun hnone => ?_⟩
      · rw [hskip]
        exact hih.1 v hv
      · rw [hskip]
        obtain ⟨dv, hd, hl⟩ := hih.2 hnone
        exact ⟨dv, hd, hl⟩

theorem lookupKw_isSome_of_mem {X : JObj} {kv : String × JVal} (h : kv ∈ X) :
    ∃ v, lookupKw X kv.1 = some v := by
  induction X with
  | nil => exact absurd h (List.not_mem_nil kv)
  | cons e tl ih =>
    rcases List.mem_cons.mp h with rfl | h'
    · exact ⟨kv.2, by simp [lookupKw]⟩
    · by_cases he : e.1 = kv.1
      · exact ⟨e.2, by simp [lookupKw, he]⟩
      · obtain ⟨v, hv⟩ := ih h'
        exact ⟨v, by simp [lookupKw, he, hv]⟩

/-! ## Serialized claim rounds -/

theorem claimAll_snd_ids (cfg : Config) (now : ℚ) :
    ∀ (ws : List String) (st : List Task),
      ((claimAll cfg ws st now).2).map Task.id = st.map Task.id := by
  intro ws
  induction ws with
  | nil =>
    intro st
    rfl
  | cons w ws ih =>
    intro st
    have hids := claimOne_snd_ids cfg st w now
    rcases hc : claimOne cfg st w now with ⟨o, st'⟩
    rw [hc] at hids
    cases o with
    | none =>
      simp only [claimAll, hc]
      rw [ih st', hids]
    | some t' =>
      simp only [claimAll, hc]
      rw [ih st', hids]

theorem claimAll_avoid (cfg : Config) (now : ℚ) (i : Nat) :
    ∀ (ws : List String) (st : List Task),
      (∀ u ∈ st, u.id = i → dueAt u now = false) →
      i ∉ ((claimAll cfg ws st now).1).map Task.id := by
  intro ws
  induction ws with
  | nil =>
    intro st h
    simp [claimAll]
  | cons w ws ih =>
    intro st h
    rcases hc : claimOne cfg st w now with ⟨o, st'⟩
    cases o with
    | none =>
      simp only [claimAll, hc]
      rw [(claimOne_none_elim hc).1]
      exact ih st h
    | some t' =>
      obtain ⟨t, hpick, ht', hst'⟩ := claimOne_some_elim hc
      have hspec := pickBest_spec hpick
      have htmem : t ∈ st := (List.mem_filter.mp hspec.1).1
      have htdue : dueAt t now = true := (List.mem_filter.mp hspec.1).2
      have htid : t.id ≠ i := by
        intro he
        rw [h t htmem he] at htdue
        exact Bool.false_ne_true htdue
      have h' : ∀ u ∈ st', u.id = i → dueAt u now = false := by
        intro u hu hui
        rw [hst'] at hu
        unfold updateById at hu
        obtain ⟨u0, hu0, hequ⟩ := List.mem_map.mp hu
        by_cases h0 : u0.id = t.id
        · rw [if_pos h0] at hequ
          rw [← hequ, ht']
          exact dueAt_claimUpdate t w now cfg.lock_timeout_seconds now
        · rw [if_neg h0] at hequ
          subst hequ
          exact h u0 hu0 hui
      simp only [claimAll, hc, List.map_cons, List.mem_cons, not_or]
      constructor
      · intro he
        apply htid
        rw [ht'] at he
        exact he.symm
      · exact ih st' h'

theorem claimAll_length (cfg : Config) (now : ℚ) :
    ∀ (ws : List String) (st : List Task), (st.map Task.id).Nodup →
      ((claimAll cfg ws st now).1).length
        = min ws.length (st.filter (fun t => dueAt t now)).length := by
  intro ws
  induction ws with
  | nil =>
    intro st h
    simp [claimAll]
  | cons w ws ih =>
    intro st hnodup
    rcases hc : claimOne cfg st w now with ⟨o, st'⟩
    cases o with
    | none =>
      obtain ⟨heq, hnone⟩ := claimOne_none_elim hc
      have hfil : st.filter (fun t => dueAt t now) = [] := by
        rw [List.filter_eq_nil_iff]
        intro t ht
        simp [hnone t ht]
      simp only [claimAll, hc]
      rw [heq, ih st hnodup, hfil]
      simp
    | some t' =>
      obtain ⟨t, hpick, ht', hst'⟩ := claimOne_some_elim hc
      have hspec := pickBest_spec hpick
      have htmem : t ∈ st := (List.mem_filter.mp hspec.1).1
      have htdue : dueAt t now = true := (List.mem_filter.mp hspec.1).2
      have hdue' : dueAt t' now = false := by
        rw [ht']
        exact dueAt_claimUpdate t w now cfg.lock_timeout_seconds now
      have hcount := due_count_update hnodup htmem htdue hdue'
      have hnodup' : (st'.map Task.id).Nodup := by
        have hids := claimOne_snd_ids cfg st w now
        rw [hc] at hids
        rw [hids]
        exact hnodup
      simp only [claimAll, hc]
      rw [List.length_cons, ih st' hnodup', hst']
      simp only [List.length_cons]
      omega

theorem claimAll_claimed_nodup (cfg : Config) (now : ℚ) :
    ∀ (ws : List String) (st : List Task),
      (((claimAll cfg ws st now).1).map Task.id).Nodup := by
  intro ws
  induction ws with
  | nil =>
    intro st
    simp [claimAll]
  | cons w ws ih =>
    intro st
    rcases hc : claimOne cfg st w now with ⟨o, st'⟩
    cases o with
    | none =>
      simp only [claimAll, hc]
      exact ih st'
    | some t' =>
      obtain ⟨t, hpick, ht', hst'⟩ := claimOne_some_elim hc
      have hdue' : dueAt t' now = false := by
        rw [ht']
        exact dueAt_claimUpdate t w now cfg.lock_timeout_seconds now
      have havoid : t'.id ∉ ((claimAll cfg ws st' now).1).map Task.id := by
        apply claimAll_avoid
        intro u hu hui
        rw [hst'] at hu
        unfold updateById at hu
        obtain ⟨u0, hu0, hequ⟩ := List.mem_map.mp hu
        by_cases h0 : u0.id = t.id
        · rw [if_pos h0] at hequ
          rw [← hequ]
          exact hdue'
        · rw [if_neg h0] at hequ
          subst hequ
          exact absurd (hui.trans (by rw [ht']; rfl)) h0
      simp only [claimAll, hc, List.map_cons, List.nodup_cons]
      exact ⟨havoid, ih st'⟩

/-! ## The claims -/

/-- C1 (code-bug evidence): `_handle_failure` on a non-terminal failure
(`retry_count < max_retries`) writes the backoff time only into
`next_retry_at` and leaves `scheduled_at` unchanged, while the claim query
gates on `scheduled_at` alone — so the freshly failed row already satisfies
the due predicate at the very instant of the failure, instead of only after
`now + base_delay * multiplier^c`.  Concretely: the demo row (submitted at 0,
claimed at 0, failing at 100 with retry_count 0 < max_retries 3 under the
default config) keeps `scheduled_at = 0`, gets `next_retry_at = 105`, and is
due again at time 100. -/
theorem nonterminal_failure_immediately_due :
    (claimUpdate demoTask "w1" 0 600).retry_count
        < (claimUpdate demoTask "w1" 0 600).max_retries ∧
      (handleFailure defaultConfig (claimUpdate demoTask "w1" 0 600) demoErr 100).scheduled_at
        = demoTask.scheduled_at ∧
      (handleFailure defaultConfig (claimUpdate demoTask "w1" 0 600) demoErr 100).next_retry_at
        = some 105 ∧
      dueAt (handleFailure defaultConfig (claimUpdate demoTask "w1" 0 600) demoErr 100) 100
        = true := by
  refine ⟨by decide, rfl, ?_, rfl⟩
  norm_num [handleFailure, claimUpdate, demoTask, defaultConfig]

/-- C2 (counterexample): a legal operation sequence — submit, claim, record
a non-terminal failure, re-claim, then complete — ends with a row in state
`completed` whose `error` is still the first attempt's error text:
`_mark_completed` never clears `error`, so "every completed row has
`error = null`" fails after a retry that eventually succeeds. -/
theorem completed_error_counterexample :
    dueAt demoTask 0 = true ∧
      (claimUpdate demoTask "w1" 0 600).retry_count
        < (claimUpdate demoTask "w1" 0 600).max_retries ∧
      dueAt (handleFailure defaultConfig (claimUpdate demoTask "w1" 0 600) demoErr 1) 2 = true ∧
      (markCompleted
          (claimUpdate (handleFailure defaultConfig (claimUpdate demoTask "w1" 0 600) demoErr 1)
            "w1" 2 600)
          (some (JVal.num 8)) 3).state = TaskState.completed ∧
      (markCompleted
          (claimUpdate (handleFailure defaultConfig (claimUpdate demoTask "w1" 0 600) demoErr 1)
            "w1" 2 600)
          (some (JVal.num 8)) 3).error
        = some "ValueError: First attempt fails\nTraceback (most recent call last)" :=
  ⟨rfl, by decide, rfl, rfl, rfl⟩

/-- C2 (amended): every reachable row in state `completed` has a non-null
`completed_at`, null `worker_id` and `locked_until`, and a `result` that is
either null or of the form `{"value": v}`; the `error` column, however, is
not cleared by completion and may retain the text of an earlier failed
attempt of the same row. -/
theorem completed_row_invariant (cfg : Config) (t : Task) (h : Reach cfg t)
    (hs : t.state = TaskState.completed) :
    t.completed_at ≠ none ∧ t.worker_id = none ∧ t.locked_until = none ∧
      (t.result = none ∨ ∃ v, t.result = some [("value", v)]) := by
  revert hs
  induction h with
  | submit reg id now fn kw d mr ts prio tg t0 h0 =>
    intro hs
    obtain ⟨hstate, -⟩ := submitRow_ok_elim h0
    rw [hstate] at hs
    exact absurd hs (by simp)
  | claim t0 w now hr hd ih =>
    intro hs
    simp [claimUpdate] at hs
  | complete t0 v now hr hstate ih =>
    intro hs
    refine ⟨by simp [markCompleted], by simp [markCompleted], by simp [markCompleted], ?_⟩
    cases v with
    | none => exact Or.inl (by simp [markCompleted])
    | some x => exact Or.inr ⟨x, by simp [markCompleted]⟩
  | fail t0 e now hr hstate ih =>
    intro hs
    by_cases hrc : t0.retry_count < t0.max_retries <;> simp [handleFailure, hrc] at hs

/-- Witness for C2's amended invariant, at a concrete completed row. -/
theorem completed_row_invariant_witness :
    (markCompleted (claimUpdate demoTask "w1" 0 600) (some (JVal.num 8)) 1).state
        = TaskState.completed ∧
      ((markCompleted (claimUpdate demoTask "w1" 0 600) (some (JVal.num 8)) 1).completed_at
          ≠ none ∧
        (markCompleted (claimUpdate demoTask "w1" 0 600) (some (JVal.num 8)) 1).worker_id
          = none ∧
        (markCompleted (claimUpdate demoTask "w1" 0 600) (some (JVal.num 8)) 1).locked_until
          = none ∧
        ((markCompleted (claimUpdate demoTask "w1" 0 600) (some (JVal.num 8)) 1).result = none ∨
          ∃ v, (markCompleted (claimUpdate demoTask "w1" 0 600) (some (JVal.num 8)) 1).result
            = some [("value", v)])) :=
  ⟨rfl,
    completed_row_invariant defaultConfig _
      (Reach.complete _ _ _
        (Reach.claim demoTask "w1" 0
          (Reach.submit demoReg 1 0 "add" demoKwargs 0 none none 0 [] demoTask
            (by show Except.ok _ = _; norm_num [demoTask, demoKwargs, demoMeta, defaultConfig]))
          rfl)
        rfl)
      rfl⟩

/-- C3 (counterexample): the claim select is built with a bare
`with_for_update()` call, whose SQLAlchemy defaults leave `skip_locked`
off — the generated SQL is plain `FOR UPDATE`, not `FOR UPDATE SKIP
LOCKED`, so claimers contend on the row lock instead of skipping it. -/
theorem acquire_without_skip_locked : acquireForUpdate.skip_locked = false :=
  rfl

/-- C3 (amended): under the serialized semantics of the claim transactions,
running k claimers against a table with unique row ids holding n < k due
rows yields exactly n successful claims, the claimed rows have pairwise
distinct ids, and the final table still has one row per id (so a given row
is held by at most one worker). The claim's skip-locked clause does not
hold: the select uses a plain `FOR UPDATE`. -/
theorem claim_exclusivity (cfg : Config) (ws : List String) (st : List Task) (now : ℚ)
    (hids : (st.map Task.id).Nodup)
    (hn : (st.filter (fun t => dueAt t now)).length < ws.length) :
    ((claimAll cfg ws st now).1).length = (st.filter (fun t => dueAt t now)).length ∧
      (((claimAll cfg ws st now).1).map Task.id).Nodup ∧
      (((claimAll cfg ws st now).2).map Task.id).Nodup := by
  refine ⟨?_, claimAll_claimed_nodup cfg now ws st, ?_⟩
  · rw [claimAll_length cfg now ws st hids]
    omega
  · rw [claimAll_snd_ids cfg now ws st]
    exact hids

/-- Witness for C3's amended statement: two claimers against one due row. -/
theorem claim_exclusivity_witness :
    (([demoTask].map Task.id).Nodup) ∧
      ([demoTask].filter (fun t => dueAt t 0)).length < (["w1", "w2"] : List String).length ∧
      ((claimAll defaultConfig ["w1", "w2"] [demoTask] 0).1).length
        = ([demoTask].filter (fun t => dueAt t 0)).length :=
  ⟨by decide, by decide,
    (claim_exclusivity defaultConfig ["w1", "w2"] [demoTask] 0 (by decide) (by decide)).1⟩

/-- C4: the claim operation returns a row only if it is due (state pending
or failed, `scheduled_at ≤ now`, lease absent or expired), picks a due row
of maximal priority breaking ties by least `created_at`, updates exactly
that row to running / leased / started, and returns it; when no row is due
it returns nothing and leaves every row unchanged. -/
theorem claimOne_spec (cfg : Config) (st : List Task) (w : String) (now : ℚ) :
    (∀ t', (claimOne cfg st w now).1 = some t' →
      ∃ t, t ∈ st ∧ dueAt t now = true ∧
        (∀ u ∈ st, dueAt u now = true →
          u.priority ≤ t.priority ∧ (u.priority = t.priority → t.created_at ≤ u.created_at)) ∧
        t' = claimUpdate t w now cfg.lock_timeout_seconds ∧
        t'.state = TaskState.running ∧ t'.worker_id = some w ∧
        t'.locked_until = some (now + cfg.lock_timeout_seconds) ∧ t'.started_at = some now ∧
        (claimOne cfg st w now).2 = updateById st t.id t') ∧
      ((claimOne cfg st w now).1 = none →
        (claimOne cfg st w now).2 = st ∧ ∀ t ∈ st, dueAt t now = false) ∧
      ((∀ t ∈ st, dueAt t now = false) → claimOne cfg st w now = (none, st)) := by
  refine ⟨?_, ?_, claimOne_of_no_due⟩
  · intro t' h1
    rcases hc : claimOne cfg st w now with ⟨o, st2⟩
    cases o with
    | none =>
      rw [hc] at h1
      exact absurd h1 (by simp)
    | some t'' =>
      rw [hc] at h1
      obtain rfl : t'' = t' := by simpa using h1
      obtain ⟨t, hpick, ht', hst2⟩ := claimOne_some_elim hc
      have hspec := pickBest_spec hpick
      have htmem := (List.mem_filter.mp hspec.1).1
      have htdue := (List.mem_filter.mp hspec.1).2
      refine ⟨t, htmem, htdue, ?_, ht', by rw [ht']; rfl, by rw [ht']; rfl, by rw [ht']; rfl,
        by rw [ht']; rfl, hst2⟩
      intro u hu hdu
      have humem : u ∈ st.filter (fun x => dueAt x now) := List.mem_filter.mpr ⟨hu, hdu⟩
      have hnb := hspec.2 u humem
      rw [not_better_iff] at hnb
      exact hnb
  · intro h1
    rcases hc : claimOne cfg st w now with ⟨o, st2⟩
    cases o with
    | some t'' =>
      rw [hc] at h1
      exact absurd h1 (by simp)
    | none =>
      obtain ⟨h2, h3⟩ := claimOne_none_elim hc
      exact ⟨h2, h3⟩

/-- Witness for C4: one due row, one claimer. -/
theorem claimOne_spec_witness :
    (claimOne defaultConfig [demoTask] "w1" 0).1 = some (claimUpdate demoTask "w1" 0 600) ∧
      ∃ t, t ∈ [demoTask] ∧ dueAt t 0 = true ∧
        (∀ u ∈ [demoTask], dueAt u 0 = true →
          u.priority ≤ t.priority ∧ (u.priority = t.priority → t.created_at ≤ u.created_at)) ∧
        claimUpdate demoTask "w1" 0 600 = claimUpdate t "w1" 0 defaultConfig.lock_timeout_seconds ∧
        (claimUpdate demoTask "w1" 0 600).state = TaskState.running ∧
        (claimUpdate demoTask "w1" 0 600).worker_id = some "w1" ∧
        (claimUpdate demoTask "w1" 0 600).locked_until
          = some (0 + defaultConfig.lock_timeout_seconds) ∧
        (claimUpdate demoTask "w1" 0 600).started_at = some 0 ∧
        (claimOne defaultConfig [demoTask] "w1" 0).2
          = updateById [demoTask] t.id (claimUpdate demoTask "w1" 0 600) :=
  ⟨rfl, (claimOne_spec defaultConfig [demoTask] "w1" 0).1 (claimUpdate demoTask "w1" 0 600) rfl⟩

/-- C5: recording a failure on a row with retries remaining bumps
`retry_count` to c+1, sets state failed, sets
`next_retry_at = now + base_delay * multiplier^c`, stores the formatted
error (class name, message, stack), clears `worker_id` and `locked_until`,
and leaves `completed_at` null. -/
theorem handleFailure_retry_spec (cfg : Config) (t : Task) (e : PyError) (now : ℚ)
    (h : t.retry_count < t.max_retries) (hc : t.completed_at = none) :
    (handleFailure cfg t e now).retry_count = t.retry_count + 1 ∧
      (handleFailure cfg t e now).state = TaskState.failed ∧
      (handleFailure cfg t e now).next_retry_at
        = some (now + cfg.base_retry_delay_seconds
            * cfg.retry_backoff_multiplier ^ t.retry_count) ∧
      (handleFailure cfg t e now).error
        = some (e.className ++ ": " ++ e.message ++ "\n" ++ e.stackText) ∧
      (handleFailure cfg t e now).worker_id = none ∧
      (handleFailure cfg t e now).locked_until = none ∧
      (handleFailure cfg t e now).completed_at = none := by
  simp [handleFailure, h, formatError, hc]

/-- Witness for C5: the first failure of the demo row (c = 0, M = 3). -/
theorem handleFailure_retry_spec_witness :
    (claimUpdate demoTask "w1" 0 600).retry_count
        < (claimUpdate demoTask "w1" 0 600).max_retries ∧
      ((handleFailure defaultConfig (claimUpdate demoTask "w1" 0 600) demoErr 100).retry_count
          = (claimUpdate demoTask "w1" 0 600).retry_count + 1 ∧
        (handleFailure defaultConfig (claimUpdate demoTask "w1" 0 600) demoErr 100).state
          = TaskState.failed ∧
        (handleFailure defaultConfig (claimUpdate demoTask "w1" 0 600) demoErr 100).next_retry_at
          = some (100 + defaultConfig.base_retry_delay_seconds
              * defaultConfig.retry_backoff_multiplier
                ^ (claimUpdate demoTask "w1" 0 600).retry_count) ∧
        (handleFailure defaultConfig (claimUpdate demoTask "w1" 0 600) demoErr 100).error
          = some (demoErr.className ++ ": " ++ demoErr.message ++ "\n" ++ demoErr.stackText) ∧
        (handleFailure defaultConfig (claimUpdate demoTask "w1" 0 600) demoErr 100).worker_id
          = none ∧
        (handleFailure defaultConfig (claimUpdate demoTask "w1" 0 600) demoErr 100).locked_until
          = none ∧
        (handleFailure defaultConfig (claimUpdate demoTask "w1" 0 600) demoErr 100).completed_at
          = none) :=
  ⟨by decide,
    handleFailure_retry_spec defaultConfig (claimUpdate demoTask "w1" 0 600) demoErr 100
      (by decide) rfl⟩

/-- C6: recording a failure on a row with retries exhausted sets state
failed, `completed_at = now`, stores the formatted error, clears
`worker_id` and `locked_until`, leaves `retry_count` unchanged, and the
result satisfies `is_terminal`. -/
theorem handleFailure_terminal_spec (cfg : Config) (t : Task) (e : PyError) (now : ℚ)
    (h : t.max_retries ≤ t.retry_count) :
    (handleFailure cfg t e now).state = TaskState.failed ∧
      (handleFailure cfg t e now).completed_at = some now ∧
      (handleFailure cfg t e now).error
        = some (e.className ++ ": " ++ e.message ++ "\n" ++ e.stackText) ∧
      (handleFailure cfg t e now).worker_id = none ∧
      (handleFailure cfg t e now).locked_until = none ∧
      (handleFailure cfg t e now).retry_count = t.retry_count ∧
      is_terminal (handleFailure cfg t e now) = true := by
  have h' : ¬ t.retry_count < t.max_retries := by omega
  simp [handleFailure, h', formatError, is_terminal, h]

/-- Witness for C6: a claimed row with retry_count = max_retries = 3. -/
theorem handleFailure_terminal_spec_witness :
    demoSpent.max_retries ≤ demoSpent.retry_count ∧
      ((handleFailure defaultConfig demoSpent demoErr 200).state = TaskState.failed ∧
        (handleFailure defaultConfig demoSpent demoErr 200).completed_at = some 200 ∧
        (handleFailure defaultConfig demoSpent demoErr 200).error
          = some (demoErr.className ++ ": " ++ demoErr.message ++ "\n" ++ demoErr.stackText) ∧
        (handleFailure defaultConfig demoSpent demoErr 200).worker_id = none ∧
        (handleFailure defaultConfig demoSpent demoErr 200).locked_until = none ∧
        (handleFailure defaultConfig demoSpent demoErr 200).retry_count = demoSpent.retry_count ∧
        is_terminal (handleFailure defaultConfig demoSpent demoErr 200) = true) :=
  ⟨by decide, handleFailure_terminal_spec defaultConfig demoSpent demoErr 200 (by decide)⟩

theorem submitRow_error_iff (reg : Registry) (cfg : Config) (id : Nat) (now : ℚ)
    (fn : String) (kw : JObj) (d : Int) (mr : Option Nat) (ts : Option Int)
    (prio : Int) (tg : JObj) :
    (∃ e, submitRow reg cfg id now fn kw d mr ts prio tg = Except.error e) ↔
      (lookupReg reg fn = none ∨
        ∃ meta e, lookupReg reg fn = some meta ∧
          validateParams meta.params kw = Except.error e) := by
  rcases hl : lookupReg reg fn with - | meta
  · constructor
    · intro _
      exact Or.inl rfl
    · intro _
      exact ⟨"Task " ++ fn ++ " not registered", by simp [submitRow, hl]⟩
  · rcases hv : validateParams meta.params kw with e | v
    · constructor
      · intro _
        exact Or.inr ⟨meta, e, rfl, hv⟩
      · intro _
        exact ⟨"Invalid arguments for task " ++ fn ++ ": " ++ e, by simp [submitRow, hl, hv]⟩
    · constructor
      · rintro ⟨e', he'⟩
        exact absurd he' (by simp [submitRow, hl, hv])
      · rintro (hnone | ⟨meta', e', hl', hv'⟩)
        · exact absurd hnone (by simp)
        · obtain rfl : meta = meta' := by injection hl'
          rw [hv] at hv'
          exact absurd hv' (by simp)

/-- C7: submit fails exactly when the task name is unregistered or the
arguments fail validation; on failure no row is written; on success exactly
one new row is appended, pending with `retry_count = 0` and
`scheduled_at = now + delay_seconds`, and its id is returned. -/
theorem submit_spec (reg : Registry) (cfg : Config) (id : Nat) (now : ℚ) (fn : String)
    (kw : JObj) (d : Int) (mr : Option Nat) (ts : Option Int) (prio : Int) (tg : JObj)
    (st : List Task) :
    ((∃ e, (submitStore reg cfg id now fn kw d mr ts prio tg st).1 = Except.error e) ↔
        (lookupReg reg fn = none ∨
          ∃ meta e, lookupReg reg fn = some meta ∧
            validateParams meta.params kw = Except.error e)) ∧
      (∀ e, (submitStore reg cfg id now fn kw d mr ts prio tg st).1 = Except.error e →
        (submitStore reg cfg id now fn kw d mr ts prio tg st).2 = st) ∧
      (∀ i, (submitStore reg cfg id now fn kw d mr ts prio tg st).1 = Except.ok i →
        ∃ t, submitRow reg cfg id now fn kw d mr ts prio tg = Except.ok t ∧ i = t.id ∧
          (submitStore reg cfg id now fn kw d mr ts prio tg st).2 = st ++ [t] ∧
          t.state = TaskState.pending ∧ t.retry_count = 0 ∧
          t.scheduled_at = now + (d : ℚ)) := by
  refine ⟨?_, ?_, ?_⟩
  · rw [← submitRow_error_iff reg cfg id now fn kw d mr ts prio tg]
    unfold submitStore
    rcases hs : submitRow reg cfg id now fn kw d mr ts prio tg with e' | t
    · simp
    · simp
  · intro e he
    unfold submitStore at he ⊢
    rcases hs : submitRow reg cfg id now fn kw d mr ts prio tg with e' | t
    · rfl
    · rw [hs] at he
      simp at he
  · intro i hi
    unfold submitStore at hi ⊢
    rcases hs : submitRow reg cfg id now fn kw d mr ts prio tg with e' | t
    · rw [hs] at hi
      simp at hi
    · rw [hs] at hi
      obtain rfl : t.id = i := by
        have h2 : Except.ok t.id = Except.ok i := hi
        injection h2
      obtain ⟨hstate, hrc, hsched, -⟩ := submitRow_ok_elim hs
      exact ⟨t, rfl, rfl, rfl, hstate, hrc, hsched⟩

/-- Witness for C7: a successful submit of the demo task. -/
theorem submit_spec_witness :
    (submitStore demoReg defaultConfig 1 0 "add" demoKwargs 0 none none 0 [] []).1
        = Except.ok 1 ∧
      ∃ t, submitRow demoReg defaultConfig 1 0 "add" demoKwargs 0 none none 0 []
          = Except.ok t ∧ 1 = t.id ∧
        (submitStore demoReg defaultConfig 1 0 "add" demoKwargs 0 none none 0 [] []).2
          = [] ++ [t] ∧
        t.state = TaskState.pending ∧ t.retry_count = 0 ∧
        t.scheduled_at = (0 : ℚ) + ((0 : Int) : ℚ) :=
  ⟨rfl, (submit_spec demoReg defaultConfig 1 0 "add" demoKwargs 0 none none 0 [] []).2.2 1 rfl⟩

/-- C8 (counterexample): an argument mapping with an undeclared extra key
passes validation — the derived pydantic model ignores extra fields — and
the extra key is silently dropped from the stored kwargs: submitting
`add(a=5, b=3, c=9)` validates and inserts exactly the same row as
`add(a=5, b=3)`, so reading back the row's kwargs does not yield a mapping
semantically equal to the submitted one with defaults filled in (`c` is
gone). -/
theorem submit_extra_key_counterexample :
    validateParams demoParams [("a", JVal.num 5), ("b", JVal.num 3), ("c", JVal.num 9)]
        = Except.ok demoKwargs ∧
      submitRow demoReg defaultConfig 1 0 "add"
          [("a", JVal.num 5), ("b", JVal.num 3), ("c", JVal.num 9)] 0 none none 0 []
        = Except.ok demoTask ∧
      lookupKw [("a", JVal.num 5), ("b", JVal.num 3), ("c", JVal.num 9)] "c"
        = some (JVal.num 9) ∧
      lookupKw demoTask.kwargs "c" = none := by
  refine ⟨rfl, ?_, rfl, rfl⟩
  show Except.ok _ = _
  norm_num [demoTask, demoKwargs, demoMeta, defaultConfig]

/-- C8 (amended): for any registered handler schema and any argument
mapping X whose keys are all declared parameter names and whose values pass
the validator's checks, the kwargs stored by submit are exactly the
validated mapping: every key of X survives with its supplied value, every
declared parameter missing from X is filled with its declared default, and
no other keys appear.  Mappings with undeclared keys also validate but
their extra keys are silently dropped (the counterexample above), and the
embedded checks are strict — values of the declared annotation type —
while pydantic's lax mode also admits coercible values and then stores the
coerced form, not the supplied one. -/
theorem submit_kwargs_roundtrip (reg : Registry) (cfg : Config) (id : Nat) (now : ℚ)
    (fn : String) (meta : TaskMeta) (X Y : JObj) (d : Int) (mr : Option Nat)
    (ts : Option Int) (prio : Int) (tg : JObj)
    (hreg : lookupReg reg fn = some meta)
    (hnodup : (meta.params.map Param.name).Nodup)
    (hdom : ∀ kv ∈ X, kv.1 ∈ meta.params.map Param.name)
    (hv : validateParams meta.params X = Except.ok Y) :
    (∃ t, submitRow reg cfg id now fn X d mr ts prio tg = Except.ok t) ∧
      (∀ t, submitRow reg cfg id now fn X d mr ts prio tg = Except.ok t → t.kwargs = Y) ∧
      Y.map Prod.fst = meta.params.map Param.name ∧
      (∀ p ∈ meta.params,
        (∀ v, lookupKw X p.name = some v → lookupKw Y p.name = some v) ∧
        (lookupKw X p.name = none →
          ∃ dv, p.default = some dv ∧ lookupKw Y p.name = some dv)) ∧
      (∀ kv ∈ X, ∃ v, lookupKw Y kv.1 = some v) := by
  refine ⟨?_, ?_, validateParams_keys hv, validateParams_lookup hnodup hv, ?_⟩
  · simp only [submitRow, hreg, hv]
    exact ⟨_, rfl⟩
  · intro t ht
    obtain ⟨-, -, -, -, -, -, -, -, -, -, meta', hl', hv'⟩ := submitRow_ok_elim ht
    rw [hreg] at hl'
    obtain rfl : meta = meta' := by injection hl'
    rw [hv] at hv'
    injection hv' with h
    exact h.symm
  · intro kv hkv
    obtain ⟨p, hp, hpname⟩ := List.mem_map.mp (hdom kv hkv)
    obtain ⟨v0, hv0⟩ := lookupKw_isSome_of_mem hkv
    have hb := (validateParams_lookup hnodup hv p hp).1 v0 (by rw [hpname]; exact hv0)
    exact ⟨v0, by rw [← hpname]; exact hb⟩

/-- Witness for C8: `add(a=5, b=3)` round-trips unchanged (no defaults to
fill). -/
theorem submit_kwargs_roundtrip_witness :
    (∃ t, submitRow demoReg defaultConfig 1 0 "add" demoKwargs 0 none none 0 []
        = Except.ok t) ∧
      (∀ t, submitRow demoReg defaultConfig 1 0 "add" demoKwargs 0 none none 0 []
          = Except.ok t → t.kwargs = demoKwargs) ∧
      demoKwargs.map Prod.fst = demoMeta.params.map Param.name ∧
      (∀ p ∈ demoMeta.params,
        (∀ v, lookupKw demoKwargs p.name = some v → lookupKw demoKwargs p.name = some v) ∧
        (lookupKw demoKwargs p.name = none →
          ∃ dv, p.default = some dv ∧ lookupKw demoKwargs p.name = some dv)) ∧
      (∀ kv ∈ demoKwargs, ∃ v, lookupKw demoKwargs kv.1 = some v) :=
  submit_kwargs_roundtrip demoReg defaultConfig 1 0 "add" demoMeta demoKwargs demoKwargs
    0 none none 0 [] rfl (by decide) (by decide) rfl

/-- C9: for every reachable row, `retry_count ≤ max_retries`: submit starts
at 0, claim and completion leave both fields alone, and failure recording
increments `retry_count` only when it is strictly below `max_retries`. -/
theorem retry_count_le_max (cfg : Config) (t : Task) (h : Reach cfg t) :
    t.retry_count ≤ t.max_retries := by
  induction h with
  | submit reg id now fn kw d mr ts prio tg t0 h0 =>
    obtain ⟨-, hrc, -⟩ := submitRow_ok_elim h0
    omega
  | claim t0 w now hr hd ih =>
    simpa [claimUpdate] using ih
  | complete t0 v now hr hs ih =>
    simpa [markCompleted] using ih
  | fail t0 e now hr hs ih =>
    by_cases hrc : t0.retry_count < t0.max_retries <;> simp [handleFailure, hrc] <;> omega

/-- Witness for C9: the freshly submitted demo row. -/
theorem retry_count_le_max_witness : demoTask.retry_count ≤ demoTask.max_retries :=
  retry_count_le_max defaultConfig demoTask
    (Reach.submit demoReg 1 0 "add" demoKwargs 0 none none 0 [] demoTask
      (by show Except.ok _ = _; norm_num [demoTask, demoKwargs, demoMeta, defaultConfig]))

/-- C10: a task with `timeout_seconds = 0` is dispatched exactly as if
`timeout_seconds` were null — `if task.timeout_seconds:` is falsy for 0, so
`asyncio.wait_for` is never used, the handler is awaited without bound, and
the attempt can never end in the timeout outcome. -/
theorem timeout_zero_no_timeout (t : Task) (dur : ℚ) (run : Except PyError (Option JVal))
    (h : t.timeout_seconds = some 0) :
    executeOutcome t dur run
        = executeOutcome { t with timeout_seconds := none } dur run ∧
      executeOutcome t dur run ≠ ExecOutcome.timedOut := by
  constructor
  · simp [executeOutcome, timeoutApplies, h]
  · simp only [executeOutcome, timeoutApplies, h]
    cases run <;> simp

/-- Witness for C10: a handler running 50s against a zero timeout. -/
theorem timeout_zero_no_timeout_witness :
    ({ demoTask with timeout_seconds := some 0 } : Task).timeout_seconds = some 0 ∧
      (executeOutcome { demoTask with timeout_seconds := some 0 } 50
            (Except.ok (some (JVal.num 8)))
          = executeOutcome
              { { demoTask with timeout_seconds := some 0 } with timeout_seconds := none } 50
              (Except.ok (some (JVal.num 8))) ∧
        executeOutcome { demoTask with timeout_seconds := some 0 } 50
            (Except.ok (some (JVal.num 8)))
          ≠ ExecOutcome.timedOut) :=
  ⟨rfl, timeout_zero_no_timeout { demoTask with timeout_seconds := some 0 } 50
    (Except.ok (some (JVal.num 8))) rfl⟩

end Tasklib
